import Mathlib

/-!
Verification of the joybus-pio gamecube controller implementation
(`src/lib.rs`) against its natural-language specification.

The development shallowly embeds the Rust source:

* `GamecubeCommand.fromByte` embeds `GamecubeCommand::from` (the Rust
  `match` becomes the same chain of equality tests, in source order).
* `GamecubeInput.create_report` embeds `GamecubeInput::create_report`;
  `u8` fields become `Nat` (no arithmetic is performed on them, and the
  button bytes stay below 256 by construction).
* The session functions `try_new`, `wait_for_poll_start`,
  `respond_to_poll` and `respond_to_poll_raw` interleave hardware delays,
  byte receives and byte sends; they are embedded as functions producing
  an explicit `Event` trace.  Receive outcomes are drawn from a schedule
  `List (Option Nat)` — each `recv` call consumes one entry, `none`
  standing for a receive timeout.
* The PIO state machine manipulated by `restart_sm_for_read` /
  `restart_sm_for_write` is embedded as `PioState` with one operation
  per HAL call the Rust code performs.
* `recv`'s busy-poll loop is embedded fuel-indexed over an oracle for
  the rx-queue reads and the elapsed tick counter.
-/

/-- Command tags, mirroring the Rust `enum GamecubeCommand`. -/
inductive GamecubeCommand where
  | Probe
  | Poll
  | Origin
  | Recalibrate
  | Reset
  | Unknown
deriving DecidableEq, Repr

/-- Embeds `GamecubeCommand::from`: the Rust `match` on the received byte,
with its arms in source order. -/
def GamecubeCommand.fromByte (value : Nat) : GamecubeCommand :=
  if value = 0x00 then GamecubeCommand.Probe
  else if value = 0xFF then GamecubeCommand.Reset
  else if value = 0x41 then GamecubeCommand.Origin
  else if value = 0x42 then GamecubeCommand.Recalibrate
  else if value = 0x40 then GamecubeCommand.Poll
  else GamecubeCommand.Unknown

/-- Embeds the Rust `struct GamecubeInput`; `bool` fields become `Bool`
and `u8` fields become `Nat` (the code only moves them, unmodified, into
the report). -/
@[ext]
structure GamecubeInput where
  start : Bool
  a : Bool
  b : Bool
  x : Bool
  y : Bool
  z : Bool
  dpad_up : Bool
  dpad_down : Bool
  dpad_left : Bool
  dpad_right : Bool
  l_digital : Bool
  r_digital : Bool
  stick_x : Nat
  stick_y : Nat
  cstick_x : Nat
  cstick_y : Nat
  l_analog : Nat
  r_analog : Nat

/-- Embeds the `buttons1` binding in `GamecubeInput::create_report`. -/
def GamecubeInput.buttons1 (inp : GamecubeInput) : Nat :=
  (if inp.a then 0b00000001 else 0)
  ||| (if inp.b then 0b00000010 else 0)
  ||| (if inp.x then 0b00000100 else 0)
  ||| (if inp.y then 0b00001000 else 0)
  ||| (if inp.start then 0b00010000 else 0)

/-- Embeds the `buttons2` binding in `GamecubeInput::create_report`. -/
def GamecubeInput.buttons2 (inp : GamecubeInput) : Nat :=
  0b10000000
  ||| (if inp.dpad_left then 0b00000001 else 0)
  ||| (if inp.dpad_right then 0b00000010 else 0)
  ||| (if inp.dpad_down then 0b00000100 else 0)
  ||| (if inp.dpad_up then 0b00001000 else 0)
  ||| (if inp.z then 0b00010000 else 0)
  ||| (if inp.r_digital then 0b00100000 else 0)
  ||| (if inp.l_digital then 0b01000000 else 0)

/-- Embeds `GamecubeInput::create_report`: the returned `[u8; 8]` becomes
a `List Nat` of length 8. -/
def GamecubeInput.create_report (inp : GamecubeInput) : List Nat :=
  [inp.buttons1, inp.buttons2,
   inp.stick_x, inp.stick_y, inp.cstick_x, inp.cstick_y,
   inp.l_analog, inp.r_analog]

/-!
PIO state machine model.

The Rust code drives the PIO through three HAL operations:
`sm.clear_fifos()`, `sm.restart()` and `sm.exec_instruction(JMP addr)`.
`clear_fifos` empties both FIFO queues.  `StateMachine::restart` (per
the rp2040-hal contract) restarts execution of the installed program
from its wrap target — which this program installs as address 0, the
read-loop entry — and clears the state machine's internal execution
state (ISR/OSR shift registers and their counters).  `exec_instruction`
with an unconditional JMP forces the program counter to the given
address.
-/

/-- Observable state of the PIO state machine: the two FIFO queues, the
program counter, and the internal execution state (shift registers and
bit counters). -/
structure PioState where
  rxFifo : List Nat
  txFifo : List Nat
  pc : Nat
  isr : Nat
  isrCount : Nat
  osr : Nat
  osrCount : Nat
deriving DecidableEq, Repr

/-- Wrap target of the installed program (`Wrap { source: 22, target: 0 }`),
which coincides with the read-loop entry point `read` at address 0. -/
def wrapTarget : Nat := 0

/-- Write-loop entry point `write` at address 5 of the installed program. -/
def writeEntry : Nat := 5

/-- Models `sm.clear_fifos()`: empties both FIFO queues. -/
def PioState.clear_fifos (s : PioState) : PioState :=
  { s with rxFifo := [], txFifo := [] }

/-- Models `sm.restart()` (rp2040-hal `StateMachine::restart`): restarts
execution from the program's wrap target and clears the internal
execution state; the FIFOs are not touched. -/
def PioState.restart (s : PioState) : PioState :=
  { s with pc := wrapTarget, isr := 0, isrCount := 0, osr := 0, osrCount := 0 }

/-- Models `sm.exec_instruction` with an unconditional `JMP addr`. -/
def PioState.execJmp (addr : Nat) (s : PioState) : PioState :=
  { s with pc := addr }

/-- Embeds `GamecubeController::restart_sm_for_read`:
`clear_fifos()` then `restart()`. -/
def restart_sm_for_read (s : PioState) : PioState :=
  (s.clear_fifos).restart

/-- Embeds `GamecubeController::restart_sm_for_write`:
`clear_fifos()`, `restart()`, then an unconditional jump to the
write-loop entry at address 5. -/
def restart_sm_for_write (s : PioState) : PioState :=
  ((s.clear_fifos).restart).execJmp writeEntry

/-!
Session-level trace model.

The session functions (`try_new`, `wait_for_poll_start`,
`respond_to_poll`, `respond_to_poll_raw`, `send`) interleave microsecond
delays, byte receives, byte sends and state-machine restarts.  Each is
embedded as a function that emits the ordered list of these observable
actions.  A `recv` call's outcome is drawn from a schedule
`List (Option Nat)`: each call consumes one entry, `some b` standing for
a received byte and `none` for a receive timeout.
-/

/-- Observable actions of the session layer, in the order the Rust code
performs them. -/
inductive Event where
  | delayUs (us : Nat)
  | recvByte (result : Option Nat)
  | sendBytes (values : List Nat)
  | restartRead
  | execJmp (addr : Nat)
deriving DecidableEq, Repr

/-- Takes the next receive outcome from the schedule (an exhausted
schedule behaves as a timeout). -/
def takeRecv (s : List (Option Nat)) : Option Nat × List (Option Nat) :=
  match s with
  | [] => (none, [])
  | r :: rest => (r, rest)

/-- Capability/identity reply sent for Reset/Probe: `[9, 0, 3]`. -/
def idReply : List Nat := [9, 0, 3]

/-- Calibration reply sent for Recalibrate/Origin during the handshake
(`try_new`). -/
def calibrationReplyHandshake : List Nat :=
  [0, 0b10000000, 128, 128, 128, 128, 0, 0, 0, 0]

/-- Calibration reply sent for Recalibrate/Origin in the steady-state
loop (`wait_for_poll_start`). -/
def calibrationReplySteady : List Nat :=
  [0, 1, 128, 128, 128, 128, 0, 0, 0, 0]

/-- Fixed neutral report the `Poll` arm of `try_new` builds. -/
def tryNewPollReport : List Nat :=
  [0, 0b10000000, 128, 128, 128, 128, 0, 0]

/-- Embeds `GamecubeController::respond_to_poll_raw`: a 40 µs delay, two
receives whose results are dropped, a 4 µs delay, then the send of the
report.  The two dropped receive outcomes are `b1` and `b2`. -/
def respond_to_poll_raw (report : List Nat) (b1 b2 : Option Nat) : List Event :=
  [Event.delayUs 40, Event.recvByte b1, Event.recvByte b2,
   Event.delayUs 4, Event.sendBytes report]

/-- Embeds `GamecubeController::respond_to_poll`: calls
`respond_to_poll_raw` on `input.create_report()`. -/
def respond_to_poll (input : GamecubeInput) (b1 b2 : Option Nat) : List Event :=
  respond_to_poll_raw input.create_report b1 b2

/-- Embeds `GamecubeController::try_new` as a trace over a receive
schedule.  It first forces the state machine to address 0, then receives
one command byte; the returned `Bool` is `true` for `Ok(controller)` and
`false` for `Err(pio)` (the Rust `Err` hands the unconsumed `JoybusPio`
back to the caller). -/
def try_new (sched : List (Option Nat)) : List Event × Bool :=
  let (b, s1) := takeRecv sched
  let pre := [Event.execJmp 0, Event.recvByte b]
  match b with
  | none => (pre, false)
  | some v =>
    match GamecubeCommand.fromByte v with
    | GamecubeCommand.Reset | GamecubeCommand.Probe =>
        (pre ++ [Event.delayUs 4, Event.sendBytes idReply], true)
    | GamecubeCommand.Recalibrate | GamecubeCommand.Origin =>
        (pre ++ [Event.delayUs 4, Event.sendBytes calibrationReplyHandshake], true)
    | GamecubeCommand.Poll =>
        let (b1, s2) := takeRecv s1
        let (b2, _) := takeRecv s2
        (pre ++ respond_to_poll_raw tryNewPollReport b1 b2, true)
    | GamecubeCommand.Unknown =>
        (pre ++ [Event.delayUs 130, Event.restartRead], true)

/-- Embeds one iteration of the `loop` in
`GamecubeController::wait_for_poll_start`; the returned `Bool` is `true`
when the iteration returns (command was `Poll`) and `false` when the
loop continues. -/
def wait_for_poll_start_step (b : Option Nat) : List Event × Bool :=
  let pre := [Event.recvByte b]
  match b with
  | some v =>
    match GamecubeCommand.fromByte v with
    | GamecubeCommand.Reset | GamecubeCommand.Probe =>
        (pre ++ [Event.delayUs 4, Event.sendBytes idReply], false)
    | GamecubeCommand.Recalibrate | GamecubeCommand.Origin =>
        (pre ++ [Event.delayUs 4, Event.sendBytes calibrationReplySteady], false)
    | GamecubeCommand.Poll => (pre, true)
    | GamecubeCommand.Unknown =>
        (pre ++ [Event.delayUs 130, Event.restartRead], false)
  | none => (pre ++ [Event.delayUs 130, Event.restartRead], false)

/-- Embeds `GamecubeController::wait_for_poll_start` over a finite
receive schedule (the real loop runs until a `Poll` arrives; the model
stops, returning `false`, when the schedule is exhausted). -/
def wait_for_poll_start : List (Option Nat) → List Event × Bool
  | [] => ([], false)
  | b :: rest =>
    let (evs, quit) := wait_for_poll_start_step b
    if quit then (evs, true)
    else
      let (evs2, r) := wait_for_poll_start rest
      (evs ++ evs2, r)

/-!
Receive loop model.

`GamecubeController::recv` records the timer value, then loops: each
iteration tries `rx.read()`; on a byte it returns `Some(value as u8)`
(the low 8 bits of the 32-bit FIFO word); on `None` it returns `None`
once the elapsed tick count exceeds the bound `2000000`.  The loop is
embedded fuel-indexed over two oracles: `read i` is the result of the
i-th `rx.read()` attempt and `elapsed i` the elapsed tick count observed
right after the i-th failed attempt.  The outer `Option` is `none` only
when the fuel runs out before the loop would have returned.
-/

/-- Timeout bound of `recv`, in timer ticks (`> 2000000` in the source). -/
def recvTimeoutTicks : Nat := 2000000

/-- Fuel-indexed embedding of the busy-poll loop in
`GamecubeController::recv`, starting at attempt index `i`. -/
def recvAux (read : Nat → Option Nat) (elapsed : Nat → Nat) :
    Nat → Nat → Option (Option Nat)
  | 0, _ => none
  | fuel + 1, i =>
    match read i with
    | some v => some (some (v % 256))
    | none =>
      if recvTimeoutTicks < elapsed i then some none
      else recvAux read elapsed fuel (i + 1)

/-- Embeds `GamecubeController::recv`: the busy-poll loop started at
attempt index 0. -/
def recv (read : Nat → Option Nat) (elapsed : Nat → Nat) (fuel : Nat) :
    Option (Option Nat) :=
  recvAux read elapsed fuel 0

/-!
Send model.

`GamecubeController::send` spin-waits for the data line to read high,
restarts the state machine for write, and then pushes one 32-bit word
per payload byte into the tx FIFO (spin-waiting while the FIFO is full):
`word = (value << 24) | (stop << 23)` with `stop = 1` exactly on the
last byte.  The spin-waits are pure timing; the observable behaviour is
the ordered action list `send` and the pushed words `sendWords`.
-/

/-- Embeds the word encoding in `GamecubeController::send`:
`((*value as u32) << 24) | ((stop as u32) << 23)`. -/
def encodeWord (value stop : Nat) : Nat :=
  (value <<< 24) ||| (stop <<< 23)

/-- Embeds the `for (i, value) in values.iter().enumerate()` loop of
`send`: `len` is the payload length and `i` the current index. -/
def sendWordsAux (len : Nat) : Nat → List Nat → List Nat
  | _, [] => []
  | i, v :: rest =>
    encodeWord v (if i = len - 1 then 1 else 0) :: sendWordsAux len (i + 1) rest

/-- The words `GamecubeController::send` pushes into the tx FIFO, in
push order. -/
def sendWords (values : List Nat) : List Nat :=
  sendWordsAux values.length 0 values

/-- Observable actions of `GamecubeController::send`. -/
inductive SendEvent where
  | waitLineHigh
  | restartWrite
  | pushWord (w : Nat)
deriving DecidableEq, Repr

/-- Embeds `GamecubeController::send` as its ordered action list: wait
for the line to be high, restart for write, then push the encoded
words. -/
def send (values : List Nat) : List SendEvent :=
  SendEvent.waitLineHigh :: SendEvent.restartWrite ::
    (sendWords values).map SendEvent.pushWord

/-- Decoder written from the specification's documented bit layout of
the 8-byte poll report (§6 of the spec); used to compare the layout the
spec documents with the one `create_report` produces. -/
def specDecode (r : List Nat) : GamecubeInput where
  start := (r.getD 0 0).testBit 4
  a := (r.getD 0 0).testBit 0
  b := (r.getD 0 0).testBit 1
  x := (r.getD 0 0).testBit 2
  y := (r.getD 0 0).testBit 3
  z := (r.getD 1 0).testBit 4
  dpad_up := (r.getD 1 0).testBit 3
  dpad_down := (r.getD 1 0).testBit 2
  dpad_left := (r.getD 1 0).testBit 0
  dpad_right := (r.getD 1 0).testBit 1
  l_digital := (r.getD 1 0).testBit 6
  r_digital := (r.getD 1 0).testBit 5
  stick_x := r.getD 2 0
  stick_y := r.getD 3 0
  cstick_x := r.getD 4 0
  cstick_y := r.getD 5 0
  l_analog := r.getD 6 0
  r_analog := r.getD 7 0

/-- Bit content of the `buttons1` byte, per digital button. -/
theorem buttons1_bits (inp : GamecubeInput) :
    inp.buttons1.testBit 0 = inp.a ∧ inp.buttons1.testBit 1 = inp.b ∧
    inp.buttons1.testBit 2 = inp.x ∧ inp.buttons1.testBit 3 = inp.y ∧
    inp.buttons1.testBit 4 = inp.start ∧ inp.buttons1.testBit 5 = false ∧
    inp.buttons1.testBit 6 = false ∧ inp.buttons1.testBit 7 = false := by
  obtain ⟨start, a, b, x, y, z, du, dd, dl, dr, ld, rd, sx, sy, cx, cy, la, ra⟩ := inp
  cases a <;> cases b <;> cases x <;> cases y <;> cases start <;>
    simp [GamecubeInput.buttons1] <;> decide

/-- Bit content of the `buttons2` byte: bit 7 always set, one bit per
remaining digital input. -/
theorem buttons2_bits (inp : GamecubeInput) :
    inp.buttons2.testBit 7 = true ∧
    inp.buttons2.testBit 0 = inp.dpad_left ∧
    inp.buttons2.testBit 1 = inp.dpad_right ∧
    inp.buttons2.testBit 2 = inp.dpad_down ∧
    inp.buttons2.testBit 3 = inp.dpad_up ∧
    inp.buttons2.testBit 4 = inp.z ∧
    inp.buttons2.testBit 5 = inp.r_digital ∧
    inp.buttons2.testBit 6 = inp.l_digital := by
  obtain ⟨start, a, b, x, y, z, du, dd, dl, dr, ld, rd, sx, sy, cx, cy, la, ra⟩ := inp
  cases dl <;> cases dr <;> cases dd <;> cases du <;> cases z <;> cases rd <;>
    cases ld <;> simp [GamecubeInput.buttons2] <;> decide

/-- C1: for every received command byte `b` (0–255), classification
yields exactly one tag: `Probe` iff `b = 0x00`, `Reset` iff `b = 0xFF`,
`Origin` iff `b = 0x41`, `Recalibrate` iff `b = 0x42`, `Poll` iff
`b = 0x40`, and `Unknown` exactly for every other byte value; `Unknown`
is an ordinary value of the closed result type (the classifier is a
total function into `GamecubeCommand`, never an error). -/
theorem C1_command_classification (b : Nat) (_hb : b < 256) :
    (GamecubeCommand.fromByte b = GamecubeCommand.Probe ↔ b = 0x00) ∧
    (GamecubeCommand.fromByte b = GamecubeCommand.Reset ↔ b = 0xFF) ∧
    (GamecubeCommand.fromByte b = GamecubeCommand.Origin ↔ b = 0x41) ∧
    (GamecubeCommand.fromByte b = GamecubeCommand.Recalibrate ↔ b = 0x42) ∧
    (GamecubeCommand.fromByte b = GamecubeCommand.Poll ↔ b = 0x40) ∧
    (GamecubeCommand.fromByte b = GamecubeCommand.Unknown ↔
      b ≠ 0x00 ∧ b ≠ 0xFF ∧ b ≠ 0x41 ∧ b ≠ 0x42 ∧ b ≠ 0x40) := by
  unfold GamecubeCommand.fromByte
  split_ifs <;> simp_all

/-- Witness for C1 at the concrete byte `0x41`. -/
theorem C1_command_classification_witness :
    GamecubeCommand.fromByte 0x41 = GamecubeCommand.Origin ↔ (0x41 : Nat) = 0x41 :=
  (C1_command_classification 0x41 (by decide)).2.2.1

/-- C2: for every input snapshot, `create_report` returns exactly 8
bytes; byte 0 has bit0=A, bit1=B, bit2=X, bit3=Y, bit4=Start and bits
5–7 zero; byte 1 has bit 7 always set, bit0=DpadLeft, bit1=DpadRight,
bit2=DpadDown, bit3=DpadUp, bit4=Z, bit5=R-digital, bit6=L-digital; and
bytes 2–7 are the caller-supplied analog values unchanged. -/
theorem C2_create_report_layout (inp : GamecubeInput) :
    inp.create_report.length = 8 ∧
    ((inp.create_report.getD 0 0).testBit 0 = inp.a ∧
     (inp.create_report.getD 0 0).testBit 1 = inp.b ∧
     (inp.create_report.getD 0 0).testBit 2 = inp.x ∧
     (inp.create_report.getD 0 0).testBit 3 = inp.y ∧
     (inp.create_report.getD 0 0).testBit 4 = inp.start ∧
     (inp.create_report.getD 0 0).testBit 5 = false ∧
     (inp.create_report.getD 0 0).testBit 6 = false ∧
     (inp.create_report.getD 0 0).testBit 7 = false) ∧
    ((inp.create_report.getD 1 0).testBit 7 = true ∧
     (inp.create_report.getD 1 0).testBit 0 = inp.dpad_left ∧
     (inp.create_report.getD 1 0).testBit 1 = inp.dpad_right ∧
     (inp.create_report.getD 1 0).testBit 2 = inp.dpad_down ∧
     (inp.create_report.getD 1 0).testBit 3 = inp.dpad_up ∧
     (inp.create_report.getD 1 0).testBit 4 = inp.z ∧
     (inp.create_report.getD 1 0).testBit 5 = inp.r_digital ∧
     (inp.create_report.getD 1 0).testBit 6 = inp.l_digital) ∧
    inp.create_report.getD 2 0 = inp.stick_x ∧
    inp.create_report.getD 3 0 = inp.stick_y ∧
    inp.create_report.getD 4 0 = inp.cstick_x ∧
    inp.create_report.getD 5 0 = inp.cstick_y ∧
    inp.create_report.getD 6 0 = inp.l_analog ∧
    inp.create_report.getD 7 0 = inp.r_analog :=
  ⟨rfl, buttons1_bits inp, buttons2_bits inp, rfl, rfl, rfl, rfl, rfl, rfl⟩

/-- C10: decoding the documented bit positions of an encoded report
recovers every original field exactly, and encoding is deterministic
(repeated encoding of the same snapshot yields the identical report). -/
theorem C10_report_roundtrip (inp : GamecubeInput) :
    specDecode inp.create_report = inp ∧
    inp.create_report = inp.create_report := by
  refine ⟨?_, rfl⟩
  obtain ⟨ha, hb, hx, hy, hs, -, -, -⟩ := buttons1_bits inp
  obtain ⟨-, hdl, hdr, hdd, hdu, hz, hr, hl⟩ := buttons2_bits inp
  ext
  exacts [hs, ha, hb, hx, hy, hz, hdu, hdd, hdl, hdr, hl, hr, rfl, rfl, rfl, rfl, rfl, rfl]

/-- C3: whenever a Reset (0xFF) or Probe (0x00) command is dispatched —
in the handshake (`try_new`) and in the steady-state loop
(`wait_for_poll_start`) alike — the controller delays 4 µs and sends
exactly `[0x09, 0x00, 0x03]`; whenever a Recalibrate (0x42) or Origin
(0x41) command is dispatched it delays 4 µs and sends exactly the 10
bytes `[0x00, b, 128, 128, 128, 128, 0, 0, 0, 0]` with `b = 0b10000000`
in the handshake and `b = 0b00000001` in the steady state. -/
theorem C3_canned_replies (v : Nat) (sched : List (Option Nat)) :
    ((v = 0xFF ∨ v = 0x00) →
      try_new (some v :: sched) =
        ([Event.execJmp 0, Event.recvByte (some v),
          Event.delayUs 4, Event.sendBytes [0x09, 0x00, 0x03]], true) ∧
      wait_for_poll_start_step (some v) =
        ([Event.recvByte (some v),
          Event.delayUs 4, Event.sendBytes [0x09, 0x00, 0x03]], false)) ∧
    ((v = 0x42 ∨ v = 0x41) →
      try_new (some v :: sched) =
        ([Event.execJmp 0, Event.recvByte (some v), Event.delayUs 4,
          Event.sendBytes [0x00, 0b10000000, 128, 128, 128, 128, 0, 0, 0, 0]], true) ∧
      wait_for_poll_start_step (some v) =
        ([Event.recvByte (some v), Event.delayUs 4,
          Event.sendBytes [0x00, 0b00000001, 128, 128, 128, 128, 0, 0, 0, 0]], false)) := by
  constructor
  · rintro (rfl | rfl) <;>
      exact ⟨rfl, rfl⟩
  · rintro (rfl | rfl) <;>
      exact ⟨rfl, rfl⟩

/-- Witness for C3: Reset (0xFF) in the handshake and Recalibrate (0x42)
in the steady-state loop. -/
theorem C3_canned_replies_witness :
    try_new [some 0xFF] =
      ([Event.execJmp 0, Event.recvByte (some 0xFF),
        Event.delayUs 4, Event.sendBytes [0x09, 0x00, 0x03]], true) ∧
    wait_for_poll_start_step (some 0x42) =
      ([Event.recvByte (some 0x42), Event.delayUs 4,
        Event.sendBytes [0x00, 0b00000001, 128, 128, 128, 128, 0, 0, 0, 0]], false) :=
  ⟨((C3_canned_replies 0xFF []).1 (Or.inl rfl)).1,
   ((C3_canned_replies 0x42 []).2 (Or.inl rfl)).2⟩

/-- C4 counterexample: when the first received handshake byte is Poll
(0x40), `try_new` does not immediately send a report: the action right
after the receive is a 40 µs delay followed by two further receives,
and the report eventually sent is the fixed neutral
`[0x00, 0x80, 128, 128, 128, 128, 0, 0]` (`try_new` is given no input
snapshot from which to build a live report). -/
theorem C4_counterexample :
    try_new [some 0x40, some 0x03, some 0x00] =
      ([Event.execJmp 0, Event.recvByte (some 0x40),
        Event.delayUs 40, Event.recvByte (some 0x03), Event.recvByte (some 0x00),
        Event.delayUs 4,
        Event.sendBytes [0x00, 0b10000000, 128, 128, 128, 128, 0, 0]], true) ∧
    (try_new [some 0x40, some 0x03, some 0x00]).1.getD 2 (Event.delayUs 0) ≠
      Event.sendBytes [0x00, 0b10000000, 128, 128, 128, 128, 0, 0] := by
  exact ⟨rfl, by decide⟩

/-- C4 (amended): in the handshake (`try_new`), if the first received
command byte is Poll (0x40), the controller responds through the
poll-response procedure — a 40 µs delay, two bytes received and
discarded, a 4 µs delay — and then sends the fixed neutral 8-byte
report `[0x00, 0b10000000, 128, 128, 128, 128, 0, 0]` (no input
snapshot is supplied to or used by `try_new`). -/
theorem C4_poll_in_handshake (b1 b2 : Option Nat) (rest : List (Option Nat)) :
    try_new (some 0x40 :: b1 :: b2 :: rest) =
      ([Event.execJmp 0, Event.recvByte (some 0x40),
        Event.delayUs 40, Event.recvByte b1, Event.recvByte b2,
        Event.delayUs 4,
        Event.sendBytes [0x00, 0b10000000, 128, 128, 128, 128, 0, 0]], true) :=
  rfl

/-- C5: `try_new` fails (returning `Err` with the unconsumed transport,
not crashing) exactly when the receive times out: the result is `Err`
iff the first receive yields no byte, and on that path the trace shows
the transport untouched after the initial jump (nothing sent, no
restart, no delay).  An `Unknown` first byte does not fail the
handshake: after a 130 µs idle delay and a read-framing restart the
result is still `Ok`. -/
theorem C5_handshake_failure (b : Option Nat) (v : Nat)
    (sched sched2 : List (Option Nat)) :
    ((try_new (b :: sched)).2 = false ↔ b = none) ∧
    (try_new (none :: sched)).1 = [Event.execJmp 0, Event.recvByte none] ∧
    (GamecubeCommand.fromByte v = GamecubeCommand.Unknown →
      try_new (some v :: sched2) =
        ([Event.execJmp 0, Event.recvByte (some v),
          Event.delayUs 130, Event.restartRead], true)) := by
  refine ⟨?_, rfl, ?_⟩
  · cases b with
    | none => simp [try_new, takeRecv]
    | some v =>
      cases h : GamecubeCommand.fromByte v <;>
        simp [try_new, takeRecv, h]
  · intro h
    simp [try_new, takeRecv, h]

/-- Witness for C5: a timed-out first receive yields `Err`, and the
unrecognized byte `0x77` still yields `Ok`. -/
theorem C5_handshake_failure_witness :
    ((try_new [(none : Option Nat)]).2 = false ↔ (none : Option Nat) = none) ∧
    try_new [some 0x77] =
      ([Event.execJmp 0, Event.recvByte (some 0x77),
        Event.delayUs 130, Event.restartRead], true) :=
  ⟨(C5_handshake_failure none 0x77 [] []).1,
   (C5_handshake_failure (some 0x77) 0x77 [] []).2.2 (by decide)⟩

/-- C6: `restart_sm_for_read` and `restart_sm_for_write` both clear the
two FIFO queues and reset the internal execution state, and they force
the program counter to the read-loop entry (address 0) and the
write-loop entry (address 5) respectively; consequently no byte queued
before the call is observable afterwards — both queues are empty
immediately after the restart. -/
theorem C6_restart_invariants (s : PioState) (w : Nat) :
    (restart_sm_for_read s).rxFifo = [] ∧
    (restart_sm_for_read s).txFifo = [] ∧
    (restart_sm_for_read s).pc = 0 ∧
    (restart_sm_for_read s).isr = 0 ∧
    (restart_sm_for_read s).isrCount = 0 ∧
    (restart_sm_for_read s).osr = 0 ∧
    (restart_sm_for_read s).osrCount = 0 ∧
    (restart_sm_for_write s).rxFifo = [] ∧
    (restart_sm_for_write s).txFifo = [] ∧
    (restart_sm_for_write s).pc = 5 ∧
    (restart_sm_for_write s).isr = 0 ∧
    (restart_sm_for_write s).isrCount = 0 ∧
    (restart_sm_for_write s).osr = 0 ∧
    (restart_sm_for_write s).osrCount = 0 ∧
    w ∉ (restart_sm_for_read s).rxFifo ∧
    w ∉ (restart_sm_for_read s).txFifo ∧
    w ∉ (restart_sm_for_write s).rxFifo ∧
    w ∉ (restart_sm_for_write s).txFifo := by
  refine ⟨rfl, rfl, rfl, rfl, rfl, rfl, rfl, rfl, rfl, rfl, rfl, rfl, rfl, rfl,
    ?_, ?_, ?_, ?_⟩ <;> simp [restart_sm_for_read, restart_sm_for_write,
      PioState.clear_fifos, PioState.restart, PioState.execJmp]

/-- C9: `respond_to_poll` (through `respond_to_poll_raw`) performs, in
order, a 40 µs inter-frame delay, two receives whose bytes are
discarded, a 4 µs settle delay, and then the send of the 8-byte report
built from the input. -/
theorem C9_respond_to_poll_order (input : GamecubeInput) (b1 b2 : Option Nat) :
    respond_to_poll input b1 b2 =
      [Event.delayUs 40, Event.recvByte b1, Event.recvByte b2,
       Event.delayUs 4, Event.sendBytes input.create_report] :=
  rfl

/-- High bits of an encoded tx word: bit `24 + t` of the word is bit `t`
of the payload byte (for a stop flag that is 0 or 1). -/
theorem encodeWord_testBit_high (v s t : Nat) (hs : s ≤ 1) :
    (encodeWord v s).testBit (24 + t) = v.testBit t := by
  rw [encodeWord, Nat.testBit_lor, Nat.testBit_shiftLeft, Nat.testBit_shiftLeft]
  have e : 24 + t - 24 = t := by omega
  have e2 : 24 + t - 23 = t + 1 := by omega
  rw [e, e2]
  have h1 : s.testBit (t + 1) = false :=
    Nat.testBit_eq_false_of_lt
      (lt_of_le_of_lt hs (Nat.one_lt_two_pow_iff.mpr (Nat.succ_ne_zero t)))
  simp [h1]

/-- Bit 23 of an encoded tx word is the stop flag. -/
theorem encodeWord_testBit_flag (v s : Nat) (hs : s ≤ 1) :
    ((encodeWord v s).testBit 23 = true ↔ s = 1) := by
  rw [encodeWord, Nat.testBit_lor, Nat.testBit_shiftLeft, Nat.testBit_shiftLeft]
  interval_cases s <;> simp

/-- Bits below 23 of an encoded tx word are clear. -/
theorem encodeWord_testBit_low (v s t : Nat) (ht : t < 23) :
    (encodeWord v s).testBit t = false := by
  rw [encodeWord, Nat.testBit_lor, Nat.testBit_shiftLeft, Nat.testBit_shiftLeft]
  have h1 : ¬ 24 ≤ t := by omega
  have h2 : ¬ 23 ≤ t := by omega
  simp [h1, h2]

/-- `sendWordsAux` produces one word per payload byte. -/
theorem sendWordsAux_length (len i : Nat) (vs : List Nat) :
    (sendWordsAux len i vs).length = vs.length := by
  induction vs generalizing i with
  | nil => rfl
  | cons v rest ih => simp [sendWordsAux, ih]

/-- Word `t` of `sendWordsAux` encodes byte `t` of the remaining
payload, with the stop flag set exactly at overall index `len - 1`. -/
theorem sendWordsAux_getElem (len i t : Nat) (vs : List Nat) :
    (sendWordsAux len i vs)[t]? =
      (vs[t]?).map (fun v => encodeWord v (if i + t = len - 1 then 1 else 0)) := by
  induction vs generalizing i t with
  | nil => simp [sendWordsAux]
  | cons v rest ih =>
    cases t with
    | zero => simp [sendWordsAux]
    | succ t =>
      have e : i + (t + 1) = i + 1 + t := by omega
      simp [sendWordsAux, ih (i + 1) t, e]

/-- One `recvAux` step past the deadline returns `some none`: if every
read up to attempt `k` fails, the elapsed ticks stay within the bound
before attempt `k` and exceed it at attempt `k`, then fuel `k + 1`
suffices and the loop reports a timeout. -/
theorem recvAux_timeout (read : Nat → Option Nat) (elapsed : Nat → Nat)
    (k i : Nat)
    (hr : ∀ t, t ≤ k → read (i + t) = none)
    (hb : ∀ t, t < k → elapsed (i + t) ≤ recvTimeoutTicks)
    (hk : recvTimeoutTicks < elapsed (i + k)) :
    recvAux read elapsed (k + 1) i = some none := by
  induction k generalizing i with
  | zero =>
    have h0 : read i = none := by simpa using hr 0 (Nat.le_refl 0)
    have hk0 : recvTimeoutTicks < elapsed i := by simpa using hk
    simp [recvAux, h0, hk0]
  | succ k ih =>
    have h0 : read i = none := by simpa using hr 0 (Nat.zero_le _)
    have he : ¬ recvTimeoutTicks < elapsed i := by
      have h := hb 0 (Nat.succ_pos k)
      simp only [Nat.add_zero] at h
      omega
    simp only [recvAux, h0, he, if_false]
    exact ih (i + 1)
      (fun t ht => by
        have h := hr (t + 1) (Nat.succ_le_succ ht)
        have e : i + (t + 1) = i + 1 + t := by omega
        rwa [e] at h)
      (fun t ht => by
        have h := hb (t + 1) (Nat.succ_lt_succ ht)
        have e : i + (t + 1) = i + 1 + t := by omega
        rwa [e] at h)
      (by
        have e : i + (k + 1) = i + 1 + k := by omega
        rwa [e] at hk)

/-- `recvAux` returns the first byte that arrives while the elapsed
ticks are still within the bound. -/
theorem recvAux_found (read : Nat → Option Nat) (elapsed : Nat → Nat)
    (j i v : Nat)
    (hr : ∀ t, t < j → read (i + t) = none)
    (hb : ∀ t, t < j → elapsed (i + t) ≤ recvTimeoutTicks)
    (hj : read (i + j) = some v) :
    recvAux read elapsed (j + 1) i = some (some (v % 256)) := by
  induction j generalizing i with
  | zero =>
    have h0 : read i = some v := by simpa using hj
    simp [recvAux, h0]
  | succ j ih =>
    have h0 : read i = none := by simpa using hr 0 (Nat.succ_pos j)
    have he : ¬ recvTimeoutTicks < elapsed i := by
      have h := hb 0 (Nat.succ_pos j)
      simp only [Nat.add_zero] at h
      omega
    simp only [recvAux, h0, he, if_false]
    exact ih (i + 1)
      (fun t ht => by
        have h := hr (t + 1) (Nat.succ_lt_succ ht)
        have e : i + (t + 1) = i + 1 + t := by omega
        rwa [e] at h)
      (fun t ht => by
        have h := hb (t + 1) (Nat.succ_lt_succ ht)
        have e : i + (t + 1) = i + 1 + t := by omega
        rwa [e] at h)
      (by
        have e : i + (j + 1) = i + 1 + j := by omega
        rwa [e] at hj)

/-- C7 counterexample: the elapsed-time budget of `recv` is not
caller-specified — `recv` takes no timeout argument and compares the
elapsed ticks only against the hardcoded constant 2000000.  Concretely:
with every read failing and the elapsed tick count stuck at 1999999 —
far past any would-be caller budget such as 1000 ticks — the loop is
still polling after 100 iterations instead of having returned "no
data", while with the elapsed count at 2000001 it returns "no data" at
the very first poll; the only bound the loop honors is the fixed
`recvTimeoutTicks = 2000000`. -/
theorem C7_counterexample :
    recv (fun _ => none) (fun _ => 1999999) 100 = none ∧
    recv (fun _ => none) (fun _ => 2000001) 1 = some none ∧
    1999999 > 1000 ∧
    recvTimeoutTicks = 2000000 := by
  refine ⟨by decide, by decide, by decide, rfl⟩

/-- C7 (amended): `recv` returns the next available byte immediately if
one is present in the receive queue; otherwise it busy-polls against
the fixed 2000000-tick budget hardcoded in `recv` (the function takes
no timeout parameter): it returns the byte that arrives while the
elapsed ticks are still within that fixed budget, or returns `None`
("no data", not an error) once the fixed budget expires — after exactly
`k + 1` polls when the budget is first exceeded at poll `k`, one
polling granularity past the bound, never more. -/
theorem C7_recv_behavior (read : Nat → Option Nat) (elapsed : Nat → Nat)
    (v k j : Nat) :
    (read 0 = some v → recv read elapsed 1 = some (some (v % 256))) ∧
    ((∀ t, t ≤ k → read t = none) →
     (∀ t, t < k → elapsed t ≤ recvTimeoutTicks) →
     recvTimeoutTicks < elapsed k →
     recv read elapsed (k + 1) = some none) ∧
    ((∀ t, t < j → read t = none) →
     (∀ t, t < j → elapsed t ≤ recvTimeoutTicks) →
     read j = some v →
     recv read elapsed (j + 1) = some (some (v % 256))) := by
  refine ⟨?_, ?_, ?_⟩
  · intro h
    simp [recv, recvAux, h]
  · intro h1 h2 h3
    exact recvAux_timeout read elapsed k 0
      (fun t ht => by simpa using h1 t ht)
      (fun t ht => by simpa using h2 t ht)
      (by simpa using h3)
  · intro h1 h2 h3
    exact recvAux_found read elapsed j 0 v
      (fun t ht => by simpa using h1 t ht)
      (fun t ht => by simpa using h2 t ht)
      (by simpa using h3)

/-- Witness for C7: a byte with value 300 arriving at the second poll is
returned truncated to its low 8 bits (`300 % 256 = 44`). -/
theorem C7_recv_behavior_witness :
    recv (fun i => if i = 1 then some 300 else none) (fun i => 500000 * i) 2 =
      some (some 44) :=
  (C7_recv_behavior (fun i => if i = 1 then some 300 else none)
      (fun i => 500000 * i) 300 0 1).2.2 (by decide) (by decide) (by decide)

/-- C8: `send` first waits for the line to read high, then restarts the
engine for write, then pushes exactly one word per payload byte in
payload order; word `i` carries payload byte `i` in bits 31–24, the
final-byte flag in bit 23 (set exactly for the last byte), and clear
bits below 23; the empty payload pushes no words (and the embedding is
a total function — no panic). -/
theorem C8_send_encoding (values : List Nat) (i v : Nat) :
    send values = SendEvent.waitLineHigh :: SendEvent.restartWrite ::
      (sendWords values).map SendEvent.pushWord ∧
    send [] = [SendEvent.waitLineHigh, SendEvent.restartWrite] ∧
    (sendWords values).length = values.length ∧
    (values[i]? = some v → v < 256 →
      (sendWords values)[i]? =
        some (encodeWord v (if i = values.length - 1 then 1 else 0)) ∧
      (∀ t, t < 8 →
        (encodeWord v (if i = values.length - 1 then 1 else 0)).testBit (24 + t) =
          v.testBit t) ∧
      ((encodeWord v (if i = values.length - 1 then 1 else 0)).testBit 23 = true ↔
        i = values.length - 1) ∧
      (∀ t, t < 23 →
        (encodeWord v (if i = values.length - 1 then 1 else 0)).testBit t = false)) := by
  refine ⟨rfl, rfl, sendWordsAux_length _ _ _, ?_⟩
  intro hv _hv256
  have hs : (if i = values.length - 1 then 1 else 0) ≤ 1 := by split <;> omega
  refine ⟨?_, fun t _ => encodeWord_testBit_high v _ t hs, ?_,
    fun t ht => encodeWord_testBit_low v _ t ht⟩
  · rw [sendWords, sendWordsAux_getElem]
    simp [hv]
  · rw [encodeWord_testBit_flag v _ hs]
    split <;> simp_all

/-- Witness for C8: the payload `[0xAB, 0xCD]` encodes its second byte
with the stop flag set. -/
theorem C8_send_encoding_witness :
    (sendWords [0xAB, 0xCD])[1]? = some (encodeWord 0xCD 1) :=
  ((C8_send_encoding [0xAB, 0xCD] 1 0xCD).2.2.2 (by decide) (by decide)).1
